import Mathlib

/-!
Verification of the decal placement and compositing engine of the
mockup-visualizer application against its specification.

The development shallowly embeds the relevant source functions:
raster canvases become pixel grids over ℤ with rational-valued
premultiplied-alpha pixels (canvas `source-over` compositing is embedded
exactly; sub-pixel coverage is modelled by nearest sampling, which is exact
on the integer-aligned inputs used below), JavaScript numbers become ℚ or ℝ,
and the event-driven handlers become explicit state-transition functions.
-/

namespace MockupVisualizer

/-- Premultiplied-alpha pixel with one colour channel `v` and alpha `a`. -/
structure Px where
  v : ℚ
  a : ℚ
deriving DecidableEq

def Px.transparent : Px := ⟨0, 0⟩

/-- Opaque white, the seed colour `#ffffff` used for atlases without a texture. -/
def Px.white : Px := ⟨1, 1⟩

/-- Canvas-2D `source-over` compositing on premultiplied pixels. -/
def Px.over (s d : Px) : Px := ⟨s.v + d.v * (1 - s.a), s.a + d.a * (1 - s.a)⟩

/-- A raster canvas: a pixel grid addressed by integer coordinates
(top-left origin, y growing downwards, as in HTML canvas). -/
def Canvas : Type := ℤ → ℤ → Px

/-- A freshly created canvas is fully transparent. -/
def blankCanvas : Canvas := fun _ _ => Px.transparent

/-- `ctx.clearRect(x, y, w, h)`: pixels inside the rectangle become transparent. -/
def clearRect (c : Canvas) (x y w h : ℚ) : Canvas := fun i j =>
  if x ≤ (i : ℚ) ∧ (i : ℚ) < x + w ∧ y ≤ (j : ℚ) ∧ (j : ℚ) < y + h then Px.transparent
  else c i j

/-- `ctx.fillRect(x, y, w, h)` with fill style `p`. -/
def fillRect (c : Canvas) (p : Px) (x y w h : ℚ) : Canvas := fun i j =>
  if x ≤ (i : ℚ) ∧ (i : ℚ) < x + w ∧ y ≤ (j : ℚ) ∧ (j : ℚ) < y + h then p
  else c i j

/-- `ctx.drawImage(src, ox, oy, w, h)`: composite the `srcW × srcH` source
image onto `dst`, scaled to `w × h` at offset `(ox, oy)`, with `source-over`
blending and nearest sampling. -/
def drawImage (dst src : Canvas) (srcW srcH ox oy w h : ℚ) : Canvas := fun i j =>
  if ox ≤ (i : ℚ) ∧ (i : ℚ) < ox + w ∧ oy ≤ (j : ℚ) ∧ (j : ℚ) < oy + h then
    Px.over (src ⌊((i : ℚ) - ox) * srcW / w⌋ ⌊((j : ℚ) - oy) * srcH / h⌋) (dst i j)
  else dst i j

/-! ### useUVPainter.onPlace and useUVDrag.processLatest target pixels -/

/-- Target pixel of the uv-paint placement path
(`useUVPainter.ts` lines 137-138): `px = Math.floor(uv.x * canvas.width)`,
`py = Math.floor(uv.y * canvas.height)` — no Y flip. -/
def onPlaceTargetPx (u v W H : ℚ) : ℤ × ℤ := (⌊u * W⌋, ⌊v * H⌋)

/-- Target pixel of the uv-paint drag path (`useUVDrag.ts` lines 57-58):
`px = Math.round(uv.x * width)`, `py = Math.round((1 - uv.y) * height)`. -/
def uvDragTargetPx (u v W H : ℚ) : ℤ × ℤ := (round (u * W), round ((1 - v) * H))

/-- Modelled from the spec: the target-pixel formula the specification states
for uv-paint placement, `(uv.x * atlasWidth, (1 - uv.y) * atlasHeight)`. -/
def specTargetPx (u v W H : ℚ) : ℚ × ℚ := (u * W, (1 - v) * H)

/-- The composite of `useUVPainter.onPlace` (lines 137-167): target pixel
`(⌊u·W⌋, ⌊v·H⌋)`, then `translate(px, py)`, `scale(1, -1)` and
`drawImage(assetCanvas, -sx/2, -sy/2, sx, sy)` with `sx = Math.round(sizePx)`
and `sy = Math.round(sizePx * (assetCanvas.height / assetCanvas.width))`.
Under the flip, destination pixel `(i, j)` has local coordinates
`(i - px, py - j)`. -/
def onPlaceCompose (atlas asset : Canvas) (aw ah u v W H sizePx : ℚ) : Canvas :=
  let px : ℤ := ⌊u * W⌋
  let py : ℤ := ⌊v * H⌋
  let sx : ℚ := (round sizePx : ℤ)
  let sy : ℚ := (round (sizePx * (ah / aw)) : ℤ)
  fun i j =>
    let lx : ℚ := (i : ℚ) - px
    let ly : ℚ := (py : ℚ) - j
    if -(sx / 2) ≤ lx ∧ lx < sx / 2 ∧ -(sy / 2) ≤ ly ∧ ly < sy / 2 then
      Px.over (asset ⌊(lx + sx / 2) * aw / sx⌋ ⌊(ly + sy / 2) * ah / sy⌋) (atlas i j)
    else atlas i j

/-- The repaint of `useUVDrag.processLatest` (lines 56-67): target pixel
`(round(u·W), round((1-v)·H))`, then `translate(px - sizePx/2, py - sizePx/2)`
and `drawImage(rec.canvas, 0, 0, sizePx, sizePx)` — a plain `source-over`
draw with NO clearing of previously painted pixels. -/
def uvDragPaint (atlas recCanvas : Canvas) (recW recH u v W H sizePx : ℚ) : Canvas :=
  let px : ℤ := round (u * W)
  let py : ℤ := round ((1 - v) * H)
  drawImage atlas recCanvas recW recH ((px : ℚ) - sizePx / 2) ((py : ℚ) - sizePx / 2)
    sizePx sizePx

/-! ### Model zoom command (useModelCommands) -/

/-- `THREE.MathUtils.clamp(value, min, max) = Math.max(min, Math.min(max, value))`. -/
def clampQ (value lo hi : ℚ) : ℚ := max lo (min hi value)

/-- One `zoom` model command (`useModelCommands.ts` lines 17-20):
`newScale = clamp(current * delta, 0.2, 5)`, applied as a uniform scale. -/
def zoomStep (current delta : ℚ) : ℚ := clampQ (current * delta) 0.2 5

/-- The container scale after a sequence of zoom commands, starting from the
initial uniform scale 1. -/
def zoomRun (deltas : List ℚ) : ℚ := deltas.foldl zoomStep 1

/-! ### Decal registry (useDecals / ModelWithDecals.onPointerDown) -/

/-- The record fields of a geometric decal that the registry owns
(`ModelWithDecals.tsx`, type `DecalRec`, reduced to the fields the registry
commands read and write). -/
structure GeoDecalRec where
  id : ℕ
  sizeForDecal : ℚ
  rotDeg : ℚ
deriving DecidableEq

/-- A resolved surface hit, as handed to the placement handler. -/
structure SurfaceHit where
  hx : ℚ
  hy : ℚ
  hz : ℚ
deriving DecidableEq

/-- `ModelWithDecals.onPointerDown` (lines 513-556): if the ray misses the
model the handler returns without touching the registry; on a hit it appends
one freshly identified record (`setDecals(prev => [...prev, rec])`). -/
def decalPlace (decals : List GeoDecalRec) (hit : Option SurfaceHit) (newId : ℕ)
    (size rot : ℚ) : List GeoDecalRec :=
  match hit with
  | none => decals
  | some _ => decals ++ [⟨newId, size, rot⟩]

/-- The `delete` branch of the decal command handler (`useDecals.ts`
lines 32-48): `findIndex` the id, return untouched when it is `-1`, otherwise
dispose the mesh and `filter` the record out. -/
def decalDelete (decals : List GeoDecalRec) (i : ℕ) : List GeoDecalRec :=
  match decals.find? (fun d => d.id == i) with
  | none => decals
  | some _ => decals.filter (fun d => d.id ≠ i)

/-! ### uv-paint atlases and clearAll (useUVPainter / useUVDecalCommands) -/

/-- Registry record of a uv-paint decal (`useUVDecals.ts`, type `DecalRec`,
reduced to the placement fields). -/
structure UVDecalRec where
  id : ℕ
  materialUUID : ℕ
  px : ℤ
  py : ℤ
  sizePx : ℚ
deriving DecidableEq

/-- One per-material atlas: backing canvas plus its dimensions
(`useUVPainter.ts`, type `MaterialCanvas`). -/
structure MaterialCanvas where
  width : ℚ
  height : ℚ
  current : Canvas

instance : Inhabited MaterialCanvas := ⟨⟨0, 0, blankCanvas⟩⟩

/-- The seed content of `ensureMaterialCanvas` (`useUVPainter.ts` lines
49-67): a fresh (transparent) canvas into which the material's original
texture is drawn at full size, or which is filled `#ffffff` when the material
has no texture. -/
def ensureMaterialCanvas (original : Option (Canvas × ℚ × ℚ)) (w h : ℚ) : Canvas :=
  match original with
  | some (img, iw, ih) => drawImage blankCanvas img iw ih 0 0 w h
  | none => fillRect blankCanvas Px.white 0 0 w h

/-- The uv-paint engine state touched by `clearDecals`: the decal registry
and the per-material atlases. -/
structure UVState where
  decals : List UVDecalRec
  atlases : List MaterialCanvas

/-- The `clearDecals` branch of `useUVDecalCommands` (lines 66-75): every
material canvas is `clearRect`-ed over its full extent and the registry is
emptied. -/
def uvClearDecals (st : UVState) : UVState :=
  { decals := [],
    atlases := st.atlases.map fun mc =>
      { mc with current := clearRect mc.current 0 0 mc.width mc.height } }

/-! ### exportPNG renderer round-trip (useDecalCommands / ModelWithDecals) -/

/-- An opaque colour value (`THREE.Color`). -/
structure SceneColor where
  hue : ℚ
deriving DecidableEq

/-- The renderer state that `exportPNG` saves and restores: drawing-buffer
size, pixel ratio and the scene background. -/
structure RendererSnap where
  width : ℚ
  height : ℚ
  pixelRatio : ℚ
  background : Option SceneColor
deriving DecidableEq

/-- The body of the `try` block of `useDecalCommands`' `exportPNG` handler
(`useDecalCommands.ts` lines 27-41): set a device-pixel-ratio-scaled size,
clear the background, render and read back.  The readback may throw; every
renderer mutation happens before it. -/
def exportTryBody (st : RendererSnap) (dpr innerH aspect : ℚ) : RendererSnap :=
  let h : ℚ := (⌊innerH * dpr⌋ : ℤ)
  let w : ℚ := (⌊h * aspect⌋ : ℤ)
  { st with width := w, height := h, pixelRatio := dpr, background := none }

/-- The `finally` block (`useDecalCommands.ts` lines 42-47): restore size and
pixel ratio from the saved values; restore the saved background when there
was one, otherwise install a solid `bgColor` background. -/
def exportFinallyBlock (prev mid : RendererSnap) (bgColor : SceneColor) : RendererSnap :=
  { mid with
    width := prev.width, height := prev.height, pixelRatio := prev.pixelRatio,
    background := match prev.background with
      | some c => some c
      | none => some bgColor }

/-- The whole `exportPNG` handler of `useDecalCommands` /
`useUVDecalCommands`: save, run the try body, and run the `finally` block
whether or not the capture succeeded (`captureOk`). -/
def exportPNGRun (st : RendererSnap) (dpr innerH aspect : ℚ) (bgColor : SceneColor)
    (captureOk : Bool) : RendererSnap :=
  let prev := st
  let mid := exportTryBody st dpr innerH aspect
  let _ := captureOk
  exportFinallyBlock prev mid bgColor

/-- The legacy `exportPNG` handler of the first `ModelWithDecals` version
(lines 156-170): save only the size, resize, render, read back, then restore
the size — with no `try`/`finally`, so a throwing readback (`captureOk =
false`) propagates before the restore runs. -/
def exportPNGLegacy (st : RendererSnap) (dpr innerW innerH : ℚ)
    (captureOk : Bool) : RendererSnap :=
  let prev := st
  let w : ℚ := (⌊innerW * dpr⌋ : ℤ)
  let h : ℚ := (⌊innerH * dpr⌋ : ℤ)
  let mid := { st with width := w, height := h }
  if captureOk then { mid with width := prev.width, height := prev.height } else mid

/-! ### Drag rate limiting (useUVDrag / useDecalDrag) -/

/-- Events observed by a drag interaction: a pointer-move at client
coordinates, or an animation-frame boundary. -/
inductive DragEvent where
  | move : ℚ → ℚ → DragEvent
  | frame : DragEvent
deriving DecidableEq

/-- State of the uv-paint drag handler (`useUVDrag.ts`): the active-drag
flag, the latest recorded pointer position, and the `scheduled` flag that is
set when a `requestAnimationFrame(processLatest)` callback is pending. -/
structure UVDragMachine where
  active : Bool
  latest : Option (ℚ × ℚ)
  scheduled : Bool
deriving DecidableEq

/-- One step of the uv-paint drag handler; the second component counts
raycast-and-repaint executions caused by the event.
`onPointerMove` (lines 70-78) only records the position and schedules the
per-frame callback; `processLatest` runs at the frame boundary, clears
`scheduled` and performs at most one raycast-and-repaint. -/
def uvDragStep (s : UVDragMachine) : DragEvent → UVDragMachine × ℕ
  | .move x y =>
    if s.active then ({ s with latest := some (x, y), scheduled := true }, 0)
    else (s, 0)
  | .frame =>
    if s.scheduled then
      ({ s with scheduled := false },
        if s.active ∧ s.latest.isSome then 1 else 0)
    else (s, 0)

/-- State of the geometric drag handler (`useDecalDrag.ts`). -/
structure GeoDragMachine where
  active : Bool
deriving DecidableEq

/-- One step of the geometric drag handler: `onPointerMove` (lines 131-136)
records the position and calls `processLatest()` synchronously, so every
pointer-move during an active drag performs a raycast-and-repaint
immediately; nothing is deferred to the frame boundary. -/
def geoDragStep (s : GeoDragMachine) : DragEvent → GeoDragMachine × ℕ
  | .move _ _ => if s.active then (s, 1) else (s, 0)
  | .frame => (s, 0)

/-- Run a drag machine over an event trace, totalling the raycasts. -/
def runSteps {σ : Type} (step : σ → DragEvent → σ × ℕ) : σ → List DragEvent → σ × ℕ
  | s, [] => (s, 0)
  | s, e :: rest =>
    let p := step s e
    let q := runSteps step p.1 rest
    (q.1, p.2 + q.2)

/-- Animation-frame boundary test. -/
def isFrameEvent : DragEvent → Bool
  | .frame => true
  | _ => false

/-- Number of animation-frame boundaries in a trace. -/
def framesCount (tr : List DragEvent) : ℕ := tr.countP isFrameEvent

/-! ### three.js vector geometry over ℝ (exact model of Vector3) -/

/-- A 3-component vector (`THREE.Vector3`), with exact real coordinates. -/
structure V3 where
  x : ℝ
  y : ℝ
  z : ℝ

def V3.zero : V3 := ⟨0, 0, 0⟩

def V3.dot (a b : V3) : ℝ := a.x * b.x + a.y * b.y + a.z * b.z

def V3.cross (a b : V3) : V3 :=
  ⟨a.y * b.z - a.z * b.y, a.z * b.x - a.x * b.z, a.x * b.y - a.y * b.x⟩

def V3.smul (k : ℝ) (a : V3) : V3 := ⟨k * a.x, k * a.y, k * a.z⟩

def V3.sub (a b : V3) : V3 := ⟨a.x - b.x, a.y - b.y, a.z - b.z⟩

/-- `Vector3.lengthSq()`. -/
def V3.lengthSq (a : V3) : ℝ := a.x * a.x + a.y * a.y + a.z * a.z

/-- `Vector3.length()`. -/
noncomputable def V3.length (a : V3) : ℝ := Real.sqrt a.lengthSq

/-- `Vector3.normalize()`: `divideScalar(length || 1)` — the zero vector is
divided by 1 and thus left unchanged. -/
noncomputable def V3.normalize (a : V3) : V3 :=
  if a.length = 0 then a else V3.smul (1 / a.length) a

/-- A 3×3 linear map: the rotation/scale part of an object's `matrixWorld`,
as used by `Vector3.transformDirection`. -/
structure M3 where
  r0 : V3
  r1 : V3
  r2 : V3

/-- The identity `matrixWorld`. -/
def M3.id : M3 := ⟨⟨1, 0, 0⟩, ⟨0, 1, 0⟩, ⟨0, 0, 1⟩⟩

def M3.mulVec (m : M3) (v : V3) : V3 := ⟨m.r0.dot v, m.r1.dot v, m.r2.dot v⟩

/-- `Vector3.transformDirection(m)`: apply the upper 3×3 of the matrix and
normalize the result. -/
noncomputable def transformDirection (m : M3) (v : V3) : V3 := (m.mulVec v).normalize

/-- A camera pose: world up and forward (`getWorldDirection`) vectors. -/
structure CameraFrame where
  up : V3
  forward : V3

/-- The surface normal resolved by the placement and drag handlers
(`ModelWithDecals.onPointerDown` line 517, `useDecalDrag.processLatest`
lines 59-62): `hit.face.normal.clone().transformDirection(hit.object
.matrixWorld).normalize()`.  The camera is in scope in both handlers but is
never consulted for the normal — the raw outward normal is used as is. -/
noncomputable def resolveHitNormal (matrixWorld : M3) (faceNormal : V3)
    (camera : CameraFrame) : V3 :=
  let _ := camera
  (transformDirection matrixWorld faceNormal).normalize

/-- The tangent of the decal orientation basis (`useDecalDrag.ts` lines
65-71): `T = cross(camUp, normal).normalize()`; when `T.lengthSq() < 0.01`
(the gimbal case) recompute it from the camera forward vector instead. -/
noncomputable def buildTangent (normalWorld camUp camDir : V3) : V3 :=
  let t0 := (V3.cross camUp normalWorld).normalize
  if t0.lengthSq < 0.01 then (V3.cross camDir normalWorld).normalize else t0

/-- The bitangent (`useDecalDrag.ts` line 73):
`B = cross(normal, T).normalize()`. -/
noncomputable def buildBitangent (normalWorld tangent : V3) : V3 :=
  (V3.cross normalWorld tangent).normalize

/-! ### UV quality analyzer (useUVChecks) -/

/-- The geometry buffers the analyzer reads: flat position array, optional
flat uv array, optional triangle index. -/
structure BufferGeom where
  positions : List ℝ
  uvs : Option (List ℝ)
  index : Option (List ℕ)

/-- The per-mesh problem tags of `useUVChecks.ts`. -/
inductive UVProblem where
  | NO_UVS
  | UV_OUT_OF_BOUNDS
  | UV_DEGENERATE
  | UNIFORMITY_ISSUE
  | MULTI_UV_SETS
deriving DecidableEq

/-- Triangle count of the analysis loop (`useUVChecks.ts` line 103):
`index ? index.length / 3 : positions.length / 9`. -/
def triCountLoop (g : BufferGeom) : ℕ :=
  match g.index with
  | some ix => ix.length / 3
  | none => g.positions.length / 9

/-- Vertex indices of triangle `ti` (lines 108-117). -/
def triIdx (g : BufferGeom) (ti : ℕ) : ℕ × ℕ × ℕ :=
  match g.index with
  | some ix => (ix.getD (ti * 3) 0, ix.getD (ti * 3 + 1) 0, ix.getD (ti * 3 + 2) 0)
  | none => (ti * 3, ti * 3 + 1, ti * 3 + 2)

/-- `readPos` (lines 89-95). -/
def readPos (g : BufferGeom) (i : ℕ) : V3 :=
  ⟨g.positions.getD (i * 3) 0, g.positions.getD (i * 3 + 1) 0, g.positions.getD (i * 3 + 2) 0⟩

/-- `readUV` (lines 96-101). -/
def readUV (uvl : List ℝ) (i : ℕ) : ℝ × ℝ := (uvl.getD (i * 2) 0, uvl.getD (i * 2 + 1) 0)

/-- UV-space triangle area (lines 137-140): half the absolute 2D cross
product of the two edge vectors. -/
def uvTriArea (a b c : ℝ × ℝ) : ℝ :=
  |(b.1 - a.1) * (c.2 - a.2) - (b.2 - a.2) * (c.1 - a.1)| * 0.5

/-- World-space triangle area (lines 143-147): half the cross-product
magnitude of the two edge vectors. -/
noncomputable def worldTriArea (a b c : V3) : ℝ :=
  0.5 * (V3.cross (b.sub a) (c.sub a)).length

/-- UV area of triangle `ti` of the mesh. -/
def triUvAreaOf (g : BufferGeom) (uvl : List ℝ) (ti : ℕ) : ℝ :=
  let v := triIdx g ti
  uvTriArea (readUV uvl v.1) (readUV uvl v.2.1) (readUV uvl v.2.2)

/-- World area of triangle `ti` of the mesh. -/
noncomputable def triWorldAreaOf (g : BufferGeom) (ti : ℕ) : ℝ :=
  let v := triIdx g ti
  worldTriArea (readPos g v.1) (readPos g v.2.1) (readPos g v.2.2)

/-- `uvAreaSum` accumulated over the triangle loop. -/
def meshUvAreaSum (g : BufferGeom) (uvl : List ℝ) : ℝ :=
  ((List.range (triCountLoop g)).map (triUvAreaOf g uvl)).sum

/-- `worldAreaSum` accumulated over the triangle loop. -/
noncomputable def meshWorldAreaSum (g : BufferGeom) : ℝ :=
  ((List.range (triCountLoop g)).map (triWorldAreaOf g)).sum

/-- One uv coordinate pair lies outside `[0,1]` (line 133). -/
def uvCoordOOB (u : ℝ × ℝ) : Prop := u.1 < 0 ∨ u.1 > 1 ∨ u.2 < 0 ∨ u.2 > 1

/-- The `uvOutOfBounds` flag: some vertex of some looped-over triangle has a
uv coordinate outside `[0,1]`. -/
def meshUVOutOfBounds (g : BufferGeom) (uvl : List ℝ) : Prop :=
  ∃ ti ∈ List.range (triCountLoop g),
    uvCoordOOB (readUV uvl (triIdx g ti).1) ∨
      uvCoordOOB (readUV uvl (triIdx g ti).2.1) ∨
      uvCoordOOB (readUV uvl (triIdx g ti).2.2)

open scoped Classical in
/-- The problem list of one mesh (`useUVChecks.ts` lines 63-166): a missing
uv attribute yields `NO_UVS` and skips area analysis entirely; otherwise
`UNIFORMITY_ISSUE` when `texelDensity = sqrt(worldArea/uvArea)` leaves the
safe band `(0.05, 500)`, `UV_DEGENERATE` when `uvArea ≤ 1e-10`, and
`UV_OUT_OF_BOUNDS` when some uv coordinate leaves `[0,1]`. -/
noncomputable def analyzeMeshProblems (g : BufferGeom) : List UVProblem :=
  match g.uvs with
  | none => [UVProblem.NO_UVS]
  | some uvl =>
    let uvSum := meshUvAreaSum g uvl
    let wSum := meshWorldAreaSum g
    let base : List UVProblem :=
      if uvSum > 1e-10 then
        let texelDensity := Real.sqrt (wSum / uvSum)
        if texelDensity < 0.05 ∨ texelDensity > 500 then [UVProblem.UNIFORMITY_ISSUE]
        else []
      else [UVProblem.UV_DEGENERATE]
    base ++ (if meshUVOutOfBounds g uvl then [UVProblem.UV_OUT_OF_BOUNDS] else [])

/-- `summaryProblems` (lines 171-174): the union of all meshes' problems,
modelled as a deduplicated list. -/
def summaryProblems (probs : List (List UVProblem)) : List UVProblem :=
  probs.flatten.dedup

/-- The aggregate flag (line 176):
`ok = meshes.length > 0 && summaryProblems.size === 0`. -/
def reportOk (probs : List (List UVProblem)) : Bool :=
  decide (0 < probs.length) && (summaryProblems probs).isEmpty

/-! ## Theorems -/

/-! ### C10: zoom scale clamping -/

lemma zoomStep_lower (s d : ℚ) : 0.2 ≤ zoomStep s d := le_max_left _ _

lemma zoomStep_upper (s d : ℚ) : zoomStep s d ≤ 5 :=
  max_le (by norm_num) (min_le_left _ _)

lemma zoomFold_bounds (ds : List ℚ) : ∀ s : ℚ, 0.2 ≤ s → s ≤ 5 →
    0.2 ≤ ds.foldl zoomStep s ∧ ds.foldl zoomStep s ≤ 5 := by
  induction ds with
  | nil => exact fun s h1 h2 => ⟨h1, h2⟩
  | cons d rest ih =>
    intro s _ _
    simpa using ih (zoomStep s d) (zoomStep_lower s d) (zoomStep_upper s d)

/-- Claim C10: every `zoom` model command clamps the resulting uniform scale
to the closed interval `[0.2, 5]`, and starting from the initial scale `1`
no sequence of zoom commands can take the scale outside `[0.2, 5]`. -/
theorem c10_zoom_scale_clamped :
    (∀ s d : ℚ, 0.2 ≤ zoomStep s d ∧ zoomStep s d ≤ 5) ∧
    (∀ deltas : List ℚ, 0.2 ≤ zoomRun deltas ∧ zoomRun deltas ≤ 5) := by
  refine ⟨fun s d => ⟨zoomStep_lower s d, zoomStep_upper s d⟩, fun deltas => ?_⟩
  exact zoomFold_bounds deltas 1 (by norm_num) (by norm_num)

/-! ### C6: registry arithmetic -/

lemma filter_ne_id_length (l : List GeoDecalRec) (i : ℕ)
    (hnd : (l.map GeoDecalRec.id).Nodup) (hex : ∃ d ∈ l, d.id = i) :
    (l.filter (fun d => d.id ≠ i)).length + 1 = l.length := by
  induction l with
  | nil => simp at hex
  | cons a rest ih =>
    rw [List.map_cons, List.nodup_cons] at hnd
    by_cases ha : a.id = i
    · have hrest : rest.filter (fun d => d.id ≠ i) = rest := by
        rw [List.filter_eq_self]
        intro d hd
        have hne : d.id ≠ i := by
          intro hdi
          apply hnd.1
          have hmm : d.id ∈ List.map GeoDecalRec.id rest :=
            List.mem_map_of_mem GeoDecalRec.id hd
          rwa [hdi, ← ha] at hmm
        simpa using hne
      have hfa : (decide ¬a.id = i) = false := by simp [ha]
      rw [List.filter_cons]
      simp only [ne_eq, hfa, Bool.false_eq_true, if_false, hrest, List.length_cons]
    · have hex2 : ∃ d ∈ rest, d.id = i := by
        obtain ⟨d, hd, hdi⟩ := hex
        rcases List.mem_cons.mp hd with rfl | hd2
        · exact absurd hdi ha
        · exact ⟨d, hd2, hdi⟩
      have hih := ih hnd.2 hex2
      have hfa : (decide ¬a.id = i) = true := by simp [ha]
      rw [List.filter_cons]
      simp only [ne_eq, hfa, if_true, List.length_cons]
      simp only [ne_eq] at hih
      omega

/-- Claim C6: a `place` whose ray hits the model grows the registry by
exactly one; `delete(id)` of a registered id (ids being unique) shrinks it by
exactly one; `delete` of an unknown id returns the registry — every record
included — unchanged, a silent no-op. -/
theorem c6_registry_arithmetic :
    (∀ (decals : List GeoDecalRec) (hit : SurfaceHit) (newId : ℕ) (size rot : ℚ),
      (decalPlace decals (some hit) newId size rot).length = decals.length + 1) ∧
    (∀ (decals : List GeoDecalRec) (i : ℕ),
      (decals.map GeoDecalRec.id).Nodup → (∃ d ∈ decals, d.id = i) →
      (decalDelete decals i).length + 1 = decals.length) ∧
    (∀ (decals : List GeoDecalRec) (i : ℕ),
      (∀ d ∈ decals, d.id ≠ i) → decalDelete decals i = decals) := by
  refine ⟨fun decals hit newId size rot => by simp [decalPlace], ?_, ?_⟩
  · intro decals i hnd hex
    unfold decalDelete
    cases hfind : decals.find? (fun d => d.id == i) with
    | none =>
      obtain ⟨d, hd, hdi⟩ := hex
      have := List.find?_eq_none.mp hfind d hd
      simp [hdi] at this
    | some d => exact filter_ne_id_length decals i hnd hex
  · intro decals i hall
    unfold decalDelete
    rw [List.find?_eq_none.mpr]
    intro d hd
    simpa using hall d hd

/-- Witness for C6 at concrete registries. -/
theorem c6_registry_arithmetic_witness :
    (decalPlace [⟨1, 1/2, 0⟩] (some ⟨0, 0, 0⟩) 2 (1/2) 0).length =
      [(⟨1, 1/2, 0⟩ : GeoDecalRec)].length + 1 ∧
    (decalDelete [⟨1, 1/2, 0⟩, ⟨2, 1, 0⟩] 2).length + 1 =
      [(⟨1, 1/2, 0⟩ : GeoDecalRec), ⟨2, 1, 0⟩].length ∧
    decalDelete [⟨1, 1/2, 0⟩] 7 = [⟨1, 1/2, 0⟩] :=
  ⟨c6_registry_arithmetic.1 [⟨1, 1/2, 0⟩] ⟨0, 0, 0⟩ 2 (1/2) 0,
   c6_registry_arithmetic.2.1 [⟨1, 1/2, 0⟩, ⟨2, 1, 0⟩] 2 (by decide) (by decide),
   c6_registry_arithmetic.2.2 [⟨1, 1/2, 0⟩] 7 (by decide)⟩

/-! ### C1: uv-paint edits are incremental, not recomposited -/

/-- A fully white base atlas (the seed of an untextured material). -/
def whiteAtlas : Canvas := fun _ _ => Px.white

/-- A decal canvas of half-transparent black pixels. -/
def halfBlackAsset : Canvas := fun _ _ => ⟨0, 1/2⟩

/-- Claim C1: the uv-paint move/drag repaint (`useUVDrag.processLatest`)
composites the decal over whatever is already on the atlas without clearing
or recompositing from the base texture, so applying the identical command a
second time is NOT pixel-identical: on a white 8×8 atlas, painting a
half-transparent black 2×2 decal at UV (1/2, 1/2) once gives pixel (3,3) the
premultiplied value (1/2, 1), painting it twice gives (1/4, 1). -/
lemma c1_paint_eval (atlas : Canvas) :
    uvDragPaint atlas halfBlackAsset 2 2 (1/2) (1/2) 8 8 2 3 3 =
      Px.over ⟨0, 1/2⟩ (atlas 3 3) := by
  have hr1 : round ((1/2 : ℚ) * 8) = 4 := by norm_num [round_eq]
  have hr2 : round (((1 : ℚ) - 1/2) * 8) = 4 := by norm_num [round_eq]
  simp only [uvDragPaint, drawImage, hr1, hr2]
  rw [if_pos]
  · simp [halfBlackAsset]
  · constructor
    · norm_num
    refine ⟨by norm_num, by norm_num, by norm_num⟩

theorem c1_uv_drag_paint_not_idempotent :
    uvDragPaint whiteAtlas halfBlackAsset 2 2 (1/2) (1/2) 8 8 2 3 3 = ⟨1/2, 1⟩ ∧
    uvDragPaint (uvDragPaint whiteAtlas halfBlackAsset 2 2 (1/2) (1/2) 8 8 2)
      halfBlackAsset 2 2 (1/2) (1/2) 8 8 2 3 3 = ⟨1/4, 1⟩ ∧
    (⟨1/4, 1⟩ : Px) ≠ ⟨1/2, 1⟩ := by
  have h1 : uvDragPaint whiteAtlas halfBlackAsset 2 2 (1/2) (1/2) 8 8 2 3 3 = ⟨1/2, 1⟩ := by
    rw [c1_paint_eval]
    norm_num [whiteAtlas, Px.over, Px.white, Px.mk.injEq]
  refine ⟨h1, ?_, ?_⟩
  · rw [c1_paint_eval, h1]
    norm_num [Px.over, Px.mk.injEq]
  · norm_num [Px.mk.injEq]

/-! ### C5: uv-paint target pixel -/

/-- Claim C5 counterexample: at hit UV (1/2, 1/4) on a 4096×4096 atlas the
placement path (`useUVPainter.onPlace`) targets pixel (2048, 1024) — it uses
`⌊uv.y · H⌋` directly, with no Y flip — while the claimed formula
`(u·W, (1-v)·H)` gives (2048, 3072). -/
theorem c5_place_target_cex :
    onPlaceTargetPx (1/2) (1/4) 4096 4096 = (2048, 1024) ∧
    ((onPlaceTargetPx (1/2) (1/4) 4096 4096).2 : ℚ) ≠
      (specTargetPx (1/2) (1/4) 4096 4096).2 := by
  constructor
  · unfold onPlaceTargetPx
    norm_num [Prod.ext_iff]
  · unfold onPlaceTargetPx specTargetPx
    norm_num

/-- Claim C5 amended: for a square asset canvas the placement composite only
touches pixels within half the requested size of the code's target pixel
`(⌊u·W⌋, ⌊v·H⌋)`; at UV (1/2, 1/2) on a 4096×4096 atlas both the placement
path and the drag path target (2048, 2048). -/
theorem c5_place_pixel_amended (atlas asset : Canvas) (aw ah u v W H sizePx : ℚ)
    (hw : 0 < aw) (hsq : ah = aw) :
    (∀ i j : ℤ, onPlaceCompose atlas asset aw ah u v W H sizePx i j ≠ atlas i j →
      |(i : ℚ) - ((onPlaceTargetPx u v W H).1 : ℚ)| ≤ ((round sizePx : ℤ) : ℚ) / 2 ∧
      |(j : ℚ) - ((onPlaceTargetPx u v W H).2 : ℚ)| ≤ ((round sizePx : ℤ) : ℚ) / 2) ∧
    onPlaceTargetPx (1/2) (1/2) 4096 4096 = (2048, 2048) ∧
    uvDragTargetPx (1/2) (1/2) 4096 4096 = (2048, 2048) := by
  refine ⟨?_, by unfold onPlaceTargetPx; norm_num [Prod.ext_iff],
    by unfold uvDragTargetPx; norm_num [Prod.ext_iff, round_eq]⟩
  intro i j hne
  have hsy : sizePx * (ah / aw) = sizePx := by
    rw [hsq, div_self (ne_of_gt hw), mul_one]
  simp only [onPlaceCompose, hsy] at hne
  split at hne
  case isTrue hcond =>
    obtain ⟨h1, h2, h3, h4⟩ := hcond
    simp only [onPlaceTargetPx]
    constructor
    · exact abs_le.mpr ⟨by linarith, by linarith⟩
    · exact abs_le.mpr ⟨by linarith, by linarith⟩
  case isFalse hcond => exact absurd rfl hne

/-- Witness for the amended C5 at a concrete square asset. -/
theorem c5_place_pixel_amended_witness :
    0 < (512 : ℚ) ∧ (512 : ℚ) = 512 ∧
    ((∀ i j : ℤ,
        onPlaceCompose blankCanvas whiteAtlas 512 512 (1/2) (1/2) 4096 4096 512 i j ≠
          blankCanvas i j →
        |(i : ℚ) - ((onPlaceTargetPx (1/2) (1/2) 4096 4096).1 : ℚ)| ≤
          ((round (512 : ℚ) : ℤ) : ℚ) / 2 ∧
        |(j : ℚ) - ((onPlaceTargetPx (1/2) (1/2) 4096 4096).2 : ℚ)| ≤
          ((round (512 : ℚ) : ℤ) : ℚ) / 2) ∧
      onPlaceTargetPx (1/2) (1/2) 4096 4096 = (2048, 2048) ∧
      uvDragTargetPx (1/2) (1/2) 4096 4096 = (2048, 2048)) :=
  ⟨by norm_num, rfl,
    c5_place_pixel_amended blankCanvas whiteAtlas 512 512 (1/2) (1/2) 4096 4096 512
      (by norm_num) rfl⟩

/-! ### C7: clearAll wipes atlases instead of restoring the base image -/

/-- The base (pre-decal) image of an untextured material: the white seed. -/
def c7BaseAtlas : Canvas := ensureMaterialCanvas none 2 2

/-- Claim C7 counterexample: `clearDecals` in `useUVDecalCommands` clears
every atlas canvas with `clearRect`, leaving transparent pixels — it does not
restore the base pre-decal image (here the blank white seed of an untextured
material): pixel (0,0) ends transparent, while the base image is white. -/
theorem c7_clear_all_cex :
    ((uvClearDecals ⟨[⟨1, 0, 1, 1, 512⟩], [⟨2, 2, c7BaseAtlas⟩]⟩).atlases.getD 0
        default).current 0 0 = Px.transparent ∧
    c7BaseAtlas 0 0 = Px.white ∧ Px.transparent ≠ Px.white := by
  refine ⟨?_, ?_, ?_⟩
  · simp only [uvClearDecals, List.map_cons, List.map_nil, List.getD_cons_zero, clearRect]
    rw [if_pos]
    norm_num
  · simp only [c7BaseAtlas, ensureMaterialCanvas, fillRect]
    rw [if_pos]
    norm_num
  · simp only [Px.transparent, Px.white, ne_eq, Px.mk.injEq]
    norm_num

/-- Claim C7 amended: `clearAll` removes every decal from the registry and
clears every material atlas canvas to fully transparent pixels (it does not
restore the material's base image). -/
theorem c7_clear_all_amended (st : UVState) :
    (uvClearDecals st).decals = [] ∧
    ∀ mc ∈ (uvClearDecals st).atlases, ∀ i j : ℤ,
      0 ≤ (i : ℚ) → (i : ℚ) < mc.width → 0 ≤ (j : ℚ) → (j : ℚ) < mc.height →
      mc.current i j = Px.transparent := by
  refine ⟨rfl, ?_⟩
  intro mc hmc i j hi1 hi2 hj1 hj2
  simp only [uvClearDecals, List.mem_map] at hmc
  obtain ⟨mc0, _, rfl⟩ := hmc
  simp only [clearRect]
  rw [if_pos]
  exact ⟨hi1, by simpa using hi2, hj1, by simpa using hj2⟩

/-- Witness for the amended C7 at a concrete one-atlas state. -/
theorem c7_clear_all_amended_witness :
    (uvClearDecals ⟨[⟨1, 0, 1, 1, 512⟩], [⟨2, 2, c7BaseAtlas⟩]⟩).decals = [] ∧
    ∀ mc ∈ (uvClearDecals ⟨[⟨1, 0, 1, 1, 512⟩], [⟨2, 2, c7BaseAtlas⟩]⟩).atlases,
      mc.current 1 1 = Px.transparent := by
  refine ⟨(c7_clear_all_amended _).1, ?_⟩
  intro mc hmc
  have hb := (c7_clear_all_amended ⟨[⟨1, 0, 1, 1, 512⟩], [⟨2, 2, c7BaseAtlas⟩]⟩).2 mc hmc 1 1
  have hw : mc.width = 2 := by
    simp only [uvClearDecals, List.map_cons, List.map_nil, List.mem_singleton] at hmc
    rw [hmc]
  have hh : mc.height = 2 := by
    simp only [uvClearDecals, List.map_cons, List.map_nil, List.mem_singleton] at hmc
    rw [hmc]
  exact hb (by norm_num) (by rw [hw]; norm_num) (by norm_num) (by rw [hh]; norm_num)

/-! ### C8: exportPNG renderer state round-trip -/

/-- Claim C8 counterexample: with a null pre-export background, the
`finally` block installs a solid `bgColor` background instead of restoring
the null value; and the legacy `ModelWithDecals` handler has no
`try`/`finally`, so a failing capture leaves the renderer at the export
size. -/
theorem c8_export_restore_cex :
    (exportPNGRun ⟨800, 600, 1, none⟩ 2 1000 (4/3) ⟨7⟩ true).background ≠
      (⟨800, 600, 1, none⟩ : RendererSnap).background ∧
    (exportPNGLegacy ⟨800, 600, 1, some ⟨7⟩⟩ 2 1500 1000 false).width ≠
      (⟨800, 600, 1, some ⟨7⟩⟩ : RendererSnap).width := by
  constructor
  · simp [exportPNGRun, exportFinallyBlock, exportTryBody]
  · simp only [exportPNGLegacy, Bool.false_eq_true, if_false]
    norm_num

/-- Claim C8 amended: the `useDecalCommands`/`useUVDecalCommands` export
handler always restores size and pixel ratio (even when the capture fails,
thanks to `finally`), and restores the background exactly whenever the
pre-export background was non-null; the legacy `ModelWithDecals` handler
restores the full renderer state only when the capture succeeds. -/
theorem c8_export_restore_amended :
    (∀ (st : RendererSnap) (dpr innerH aspect : ℚ) (bg : SceneColor) (ok : Bool),
      (exportPNGRun st dpr innerH aspect bg ok).width = st.width ∧
      (exportPNGRun st dpr innerH aspect bg ok).height = st.height ∧
      (exportPNGRun st dpr innerH aspect bg ok).pixelRatio = st.pixelRatio ∧
      (st.background.isSome →
        (exportPNGRun st dpr innerH aspect bg ok).background = st.background)) ∧
    (∀ (st : RendererSnap) (dpr innerW innerH : ℚ),
      exportPNGLegacy st dpr innerW innerH true = st) := by
  constructor
  · intro st dpr innerH aspect bg ok
    refine ⟨rfl, rfl, rfl, ?_⟩
    intro hsome
    cases hbg : st.background with
    | none => rw [hbg] at hsome; simp at hsome
    | some c =>
      simp only [exportPNGRun, exportFinallyBlock, exportTryBody, hbg]
  · intro st dpr innerW innerH
    rfl

/-- Witness for the amended C8 at a concrete renderer state. -/
theorem c8_export_restore_amended_witness :
    ((exportPNGRun ⟨800, 600, 1, some ⟨3⟩⟩ 2 1000 (4/3) ⟨7⟩ false).width = 800 ∧
      (exportPNGRun ⟨800, 600, 1, some ⟨3⟩⟩ 2 1000 (4/3) ⟨7⟩ false).background =
        some ⟨3⟩) ∧
    exportPNGLegacy ⟨800, 600, 1, some ⟨3⟩⟩ 2 1500 1000 true = ⟨800, 600, 1, some ⟨3⟩⟩ := by
  have h := c8_export_restore_amended
  have h1 := h.1 ⟨800, 600, 1, some ⟨3⟩⟩ 2 1000 (4/3) ⟨7⟩ false
  exact ⟨⟨h1.1, h1.2.2.2 rfl⟩, h.2 ⟨800, 600, 1, some ⟨3⟩⟩ 2 1500 1000⟩

/-! ### C9: per-frame rate limiting of drag repaints -/

lemma uvDragStep_move_count (s : UVDragMachine) (x y : ℚ) :
    (uvDragStep s (DragEvent.move x y)).2 = 0 := by
  cases hA : s.active <;> simp [uvDragStep, hA]

lemma uvDragStep_frame_count (s : UVDragMachine) :
    (uvDragStep s DragEvent.frame).2 ≤ 1 := by
  cases hS : s.scheduled
  · simp [uvDragStep, hS]
  · simp only [uvDragStep, hS, if_true]
    split <;> omega

lemma runSteps_cons_snd {σ : Type} (step : σ → DragEvent → σ × ℕ) (s : σ)
    (e : DragEvent) (rest : List DragEvent) :
    (runSteps step s (e :: rest)).2 = (step s e).2 + (runSteps step (step s e).1 rest).2 :=
  rfl

lemma framesCount_cons_move (x y : ℚ) (tr : List DragEvent) :
    framesCount (DragEvent.move x y :: tr) = framesCount tr := by
  simp [framesCount, List.countP_cons, isFrameEvent]

lemma framesCount_cons_frame (tr : List DragEvent) :
    framesCount (DragEvent.frame :: tr) = framesCount tr + 1 := by
  simp [framesCount, List.countP_cons, isFrameEvent]

/-- Claim C9 counterexample: in the geometric drag handler
(`useDecalDrag.onPointerMove`) two pointer-move events with no intervening
animation frame perform two raycast-and-repaints — more than one in the same
frame. -/
theorem c9_geo_unthrottled_cex :
    (runSteps geoDragStep ⟨true⟩ [DragEvent.move 0 0, DragEvent.move 1 1]).2 = 2 ∧
    framesCount [DragEvent.move 0 0, DragEvent.move 1 1] = 0 := by
  constructor
  · rw [runSteps_cons_snd, runSteps_cons_snd]
    simp [runSteps, geoDragStep]
  · rw [framesCount_cons_move, framesCount_cons_move]
    simp [framesCount]

/-- Claim C9 amended: only the uv-paint drag handler (`useUVDrag`) is
frame-rate-limited — over any event trace it performs at most one
raycast-and-repaint per animation frame; the geometric drag handler
(`useDecalDrag`) raycasts synchronously on every pointer-move of an active
drag. -/
theorem c9_rate_limit_amended :
    (∀ (s : UVDragMachine) (tr : List DragEvent),
      (runSteps uvDragStep s tr).2 ≤ framesCount tr) ∧
    (∀ (s : GeoDragMachine) (x y : ℚ), s.active = true →
      (geoDragStep s (DragEvent.move x y)).2 = 1) := by
  constructor
  · intro s tr
    induction tr generalizing s with
    | nil => simp [runSteps, framesCount]
    | cons e rest ih =>
      rw [runSteps_cons_snd]
      cases e with
      | move x y =>
        rw [framesCount_cons_move, uvDragStep_move_count]
        simpa using ih (uvDragStep s (DragEvent.move x y)).1
      | frame =>
        rw [framesCount_cons_frame]
        have hf := uvDragStep_frame_count s
        have hr := ih (uvDragStep s DragEvent.frame).1
        omega
  · intro s x y hactive
    simp [geoDragStep, hactive]

/-- Witness for the amended C9: a concrete uv trace and an active geometric
drag move. -/
theorem c9_rate_limit_amended_witness :
    (runSteps uvDragStep ⟨true, none, false⟩
        [DragEvent.move 0 0, DragEvent.move 1 1, DragEvent.frame]).2 ≤
      framesCount [DragEvent.move 0 0, DragEvent.move 1 1, DragEvent.frame] ∧
    (geoDragStep ⟨true⟩ (DragEvent.move 0 0)).2 = 1 :=
  ⟨c9_rate_limit_amended.1 ⟨true, none, false⟩
      [DragEvent.move 0 0, DragEvent.move 1 1, DragEvent.frame],
   c9_rate_limit_amended.2 ⟨true⟩ 0 0 rfl⟩

/-! ### Vector lemmas for C2 and C3 -/

@[ext] lemma V3.ext {a b : V3} (hx : a.x = b.x) (hy : a.y = b.y) (hz : a.z = b.z) :
    a = b := by
  cases a; cases b; simp_all

lemma V3.lengthSq_nonneg (a : V3) : 0 ≤ a.lengthSq := by
  have h1 := mul_self_nonneg a.x
  have h2 := mul_self_nonneg a.y
  have h3 := mul_self_nonneg a.z
  unfold V3.lengthSq
  linarith

lemma V3.dot_self_eq_lengthSq (a : V3) : a.dot a = a.lengthSq := rfl

lemma V3.lengthSq_eq_zero_iff (a : V3) : a.lengthSq = 0 ↔ a = V3.zero := by
  constructor
  · intro h
    have h1 := mul_self_nonneg a.x
    have h2 := mul_self_nonneg a.y
    have h3 := mul_self_nonneg a.z
    unfold V3.lengthSq at h
    refine V3.ext ?_ ?_ ?_
    · exact mul_self_eq_zero.mp (by linarith)
    · exact mul_self_eq_zero.mp (by linarith)
    · exact mul_self_eq_zero.mp (by linarith)
  · intro h
    rw [h]
    norm_num [V3.lengthSq, V3.zero]

lemma V3.length_eq_zero_iff (a : V3) : a.length = 0 ↔ a = V3.zero := by
  rw [V3.length, Real.sqrt_eq_zero (V3.lengthSq_nonneg a)]
  exact V3.lengthSq_eq_zero_iff a

lemma V3.mul_self_length (a : V3) : a.length * a.length = a.lengthSq :=
  Real.mul_self_sqrt (V3.lengthSq_nonneg a)

lemma V3.lengthSq_smul (k : ℝ) (a : V3) :
    (V3.smul k a).lengthSq = k ^ 2 * a.lengthSq := by
  simp only [V3.smul, V3.lengthSq]
  ring

lemma V3.normalize_zero : V3.zero.normalize = V3.zero := by
  unfold V3.normalize
  rw [if_pos ((V3.length_eq_zero_iff V3.zero).mpr rfl)]

lemma V3.lengthSq_normalize (a : V3) (h : a ≠ V3.zero) :
    a.normalize.lengthSq = 1 := by
  have hL : a.length ≠ 0 := fun h0 => h ((V3.length_eq_zero_iff a).mp h0)
  have hS : a.lengthSq ≠ 0 := fun h0 => h ((V3.lengthSq_eq_zero_iff a).mp h0)
  unfold V3.normalize
  rw [if_neg hL, V3.lengthSq_smul]
  rw [div_pow, one_pow, sq, V3.mul_self_length]
  field_simp

lemma V3.normalize_of_lengthSq_one (a : V3) (h : a.lengthSq = 1) :
    a.normalize = a := by
  have hL : a.length = 1 := by rw [V3.length, h, Real.sqrt_one]
  unfold V3.normalize
  rw [if_neg (by rw [hL]; norm_num), hL]
  refine V3.ext ?_ ?_ ?_ <;> simp [V3.smul]

lemma V3.dot_normalize_left (a b : V3) (h : a.dot b = 0) :
    a.normalize.dot b = 0 := by
  unfold V3.normalize
  split
  · exact h
  · simp only [V3.smul, V3.dot] at h ⊢
    field_simp
    linarith

lemma V3.dot_comm (a b : V3) : a.dot b = b.dot a := by
  simp only [V3.dot]
  ring

lemma V3.cross_dot_self_left (a b : V3) : (V3.cross a b).dot a = 0 := by
  simp only [V3.cross, V3.dot]
  ring

lemma V3.cross_dot_self_right (a b : V3) : (V3.cross a b).dot b = 0 := by
  simp only [V3.cross, V3.dot]
  ring

lemma V3.lengthSq_cross (a b : V3) :
    (V3.cross a b).lengthSq = a.lengthSq * b.lengthSq - (a.dot b) ^ 2 := by
  simp only [V3.cross, V3.dot, V3.lengthSq]
  ring

lemma V3.cross_cross_self (t n : V3) :
    V3.cross t (V3.cross n t) =
      V3.sub (V3.smul (t.dot t) n) (V3.smul (t.dot n) t) := by
  refine V3.ext ?_ ?_ ?_ <;> simp only [V3.cross, V3.smul, V3.sub, V3.dot] <;> ring

/-! ### C2: the resolved normal is never flipped toward the camera -/

/-- Claim C2 counterexample: with the identity world matrix and face normal
(0,0,1), a camera whose forward vector is also (0,0,1) (the face points away
from the viewer) receives the resolved normal unnegated: its dot product with
the camera forward vector is 1 > 0, not ≤ 0 — no negation is performed by
either handler. -/
theorem c2_normal_not_flipped_cex :
    (resolveHitNormal M3.id ⟨0, 0, 1⟩ ⟨⟨0, 1, 0⟩, ⟨0, 0, 1⟩⟩).dot
        (⟨0, 0, 1⟩ : V3) = 1 ∧
    ¬((resolveHitNormal M3.id ⟨0, 0, 1⟩ ⟨⟨0, 1, 0⟩, ⟨0, 0, 1⟩⟩).dot
        (⟨0, 0, 1⟩ : V3) ≤ 0) := by
  have hm : M3.mulVec M3.id ⟨0, 0, 1⟩ = ⟨0, 0, 1⟩ := by
    refine V3.ext ?_ ?_ ?_ <;> norm_num [M3.mulVec, M3.id, V3.dot]
  have hu : ((⟨0, 0, 1⟩ : V3)).lengthSq = 1 := by norm_num [V3.lengthSq]
  have hres : resolveHitNormal M3.id ⟨0, 0, 1⟩ ⟨⟨0, 1, 0⟩, ⟨0, 0, 1⟩⟩ = ⟨0, 0, 1⟩ := by
    unfold resolveHitNormal transformDirection
    rw [hm, V3.normalize_of_lengthSq_one _ hu, V3.normalize_of_lengthSq_one _ hu]
  rw [hres]
  norm_num [V3.dot]

/-- Claim C2 amended: the resolved surface normal is the world-transformed,
unit-normalized face normal, used as is: it does not depend on the camera at
all (so no negation toward the viewer ever happens, and its dot product with
the camera forward vector can be positive, as the counterexample shows), and
it is a unit vector whenever the transformed face normal is nonzero. -/
theorem c2_resolved_normal_amended (matrixWorld : M3) (faceNormal : V3)
    (cam cam2 : CameraFrame) (h : M3.mulVec matrixWorld faceNormal ≠ V3.zero) :
    resolveHitNormal matrixWorld faceNormal cam =
      resolveHitNormal matrixWorld faceNormal cam2 ∧
    (resolveHitNormal matrixWorld faceNormal cam).lengthSq = 1 := by
  refine ⟨rfl, ?_⟩
  unfold resolveHitNormal transformDirection
  have h1 : (M3.mulVec matrixWorld faceNormal).normalize.lengthSq = 1 :=
    V3.lengthSq_normalize _ h
  rw [V3.normalize_of_lengthSq_one _ h1]
  exact h1

/-- Witness for the amended C2 at the identity matrix and normal (0,0,1). -/
theorem c2_resolved_normal_amended_witness :
    M3.mulVec M3.id ⟨0, 0, 1⟩ ≠ V3.zero ∧
    (resolveHitNormal M3.id ⟨0, 0, 1⟩ ⟨⟨0, 1, 0⟩, ⟨0, 0, 1⟩⟩ =
        resolveHitNormal M3.id ⟨0, 0, 1⟩ ⟨⟨1, 0, 0⟩, ⟨0, 0, -1⟩⟩ ∧
      (resolveHitNormal M3.id ⟨0, 0, 1⟩ ⟨⟨0, 1, 0⟩, ⟨0, 0, 1⟩⟩).lengthSq = 1) := by
  have hm : M3.mulVec M3.id ⟨0, 0, 1⟩ = ⟨0, 0, 1⟩ := by
    refine V3.ext ?_ ?_ ?_ <;> norm_num [M3.mulVec, M3.id, V3.dot]
  have hne : M3.mulVec M3.id ⟨0, 0, 1⟩ ≠ V3.zero := by
    rw [hm]
    intro hcontra
    have := congrArg V3.z hcontra
    norm_num [V3.zero] at this
  exact ⟨hne, c2_resolved_normal_amended M3.id ⟨0, 0, 1⟩ ⟨⟨0, 1, 0⟩, ⟨0, 0, 1⟩⟩
    ⟨⟨1, 0, 0⟩, ⟨0, 0, -1⟩⟩ hne⟩

/-! ### C3: the orientation basis is orthonormal and right-handed -/

lemma basis_extend (n t : V3) (hn : n.lengthSq = 1) (ht : t.lengthSq = 1)
    (htn : t.dot n = 0) :
    (buildBitangent n t).lengthSq = 1 ∧ t.dot (buildBitangent n t) = 0 ∧
    (buildBitangent n t).dot n = 0 ∧ V3.cross t (buildBitangent n t) = n := by
  have hc : (V3.cross n t).lengthSq = 1 := by
    rw [V3.lengthSq_cross, hn, ht, V3.dot_comm n t, htn]
    norm_num
  have hb : buildBitangent n t = V3.cross n t := by
    unfold buildBitangent
    exact V3.normalize_of_lengthSq_one _ hc
  rw [hb]
  refine ⟨hc, ?_, V3.cross_dot_self_left n t, ?_⟩
  · simp only [V3.cross, V3.dot]
    ring
  · rw [V3.cross_cross_self, V3.dot_self_eq_lengthSq, ht, htn]
    refine V3.ext ?_ ?_ ?_ <;> simp [V3.smul, V3.sub]

lemma buildTangent_unit_perp (n up dir : V3) (hn : n.lengthSq = 1)
    (hup : up.lengthSq = 1) (hdir : dir.lengthSq = 1) (hud : up.dot dir = 0) :
    (buildTangent n up dir).lengthSq = 1 ∧ (buildTangent n up dir).dot n = 0 := by
  by_cases hc : V3.cross up n = V3.zero
  · -- gimbal case: the primary tangent is the zero vector, the fallback fires
    have ht0 : (V3.cross up n).normalize = V3.zero := by
      rw [hc]
      exact V3.normalize_zero
    have hcond : ((V3.cross up n).normalize).lengthSq < 0.01 := by
      rw [ht0]
      norm_num [V3.lengthSq, V3.zero]
    -- from cross up n = 0 with unit vectors: (up·n)² = 1 and n = (up·n) • up
    have hlag : up.lengthSq * n.lengthSq - (up.dot n) ^ 2 = 0 := by
      rw [← V3.lengthSq_cross, hc]
      norm_num [V3.lengthSq, V3.zero]
    have hdn2 : (up.dot n) ^ 2 = 1 := by
      rw [hup, hn] at hlag
      linarith
    have hw : (V3.sub n (V3.smul (up.dot n) up)).lengthSq =
        n.lengthSq - 2 * (up.dot n) ^ 2 + (up.dot n) ^ 2 * up.lengthSq := by
      simp only [V3.sub, V3.smul, V3.lengthSq, V3.dot]
      ring
    have hw0 : (V3.sub n (V3.smul (up.dot n) up)).lengthSq = 0 := by
      rw [hw, hn, hup, hdn2]
      ring
    have hz := (V3.lengthSq_eq_zero_iff _).mp hw0
    have hnu : n = V3.smul (up.dot n) up := by
      refine V3.ext ?_ ?_ ?_
      · have hx := congrArg V3.x hz
        simp only [V3.sub, V3.smul, V3.zero] at hx
        simp only [V3.smul]
        linarith
      · have hy := congrArg V3.y hz
        simp only [V3.sub, V3.smul, V3.zero] at hy
        simp only [V3.smul]
        linarith
      · have hzc := congrArg V3.z hz
        simp only [V3.sub, V3.smul, V3.zero] at hzc
        simp only [V3.smul]
        linarith
    have hdirn : dir.dot n = 0 := by
      rw [hnu]
      simp only [V3.dot, V3.smul] at hud ⊢
      linear_combination (up.x * n.x + up.y * n.y + up.z * n.z) * hud
    have hfall : (V3.cross dir n).lengthSq = 1 := by
      rw [V3.lengthSq_cross, hdir, hn, hdirn]
      norm_num
    unfold buildTangent
    rw [if_pos hcond, V3.normalize_of_lengthSq_one _ hfall]
    exact ⟨hfall, V3.cross_dot_self_right dir n⟩
  · -- generic case: the primary tangent is already unit length
    have hL1 : ((V3.cross up n).normalize).lengthSq = 1 :=
      V3.lengthSq_normalize _ hc
    have hcond : ¬((V3.cross up n).normalize).lengthSq < 0.01 := by
      rw [hL1]
      norm_num
    unfold buildTangent
    rw [if_neg hcond]
    exact ⟨hL1, V3.dot_normalize_left _ _ (V3.cross_dot_self_right up n)⟩

/-- Claim C3: for any unit world normal and camera frame (unit up and forward
vectors, mutually orthogonal), the tangent/bitangent/normal triple built by
the drag handler — tangent from the camera up vector, recomputed from the
camera forward vector in the gimbal case — is orthonormal (unit lengths,
pairwise-zero dot products) and right-handed (`T × B = N`). -/
theorem c3_basis_orthonormal (n up dir : V3) (hn : n.lengthSq = 1)
    (hup : up.lengthSq = 1) (hdir : dir.lengthSq = 1) (hud : up.dot dir = 0) :
    (buildTangent n up dir).lengthSq = 1 ∧
    (buildBitangent n (buildTangent n up dir)).lengthSq = 1 ∧
    n.lengthSq = 1 ∧
    (buildTangent n up dir).dot (buildBitangent n (buildTangent n up dir)) = 0 ∧
    (buildTangent n up dir).dot n = 0 ∧
    (buildBitangent n (buildTangent n up dir)).dot n = 0 ∧
    V3.cross (buildTangent n up dir) (buildBitangent n (buildTangent n up dir)) = n := by
  obtain ⟨ht, htn⟩ := buildTangent_unit_perp n up dir hn hup hdir hud
  obtain ⟨hb, htb, hbn, hcross⟩ := basis_extend n (buildTangent n up dir) hn ht htn
  exact ⟨ht, hb, hn, htb, htn, hbn, hcross⟩

/-- Witness for C3 at a concrete normal and camera frame. -/
theorem c3_basis_orthonormal_witness :
    ((⟨1, 0, 0⟩ : V3).lengthSq = 1 ∧ (⟨0, 1, 0⟩ : V3).lengthSq = 1 ∧
      (⟨0, 0, 1⟩ : V3).lengthSq = 1 ∧ (⟨0, 1, 0⟩ : V3).dot ⟨0, 0, 1⟩ = 0) ∧
    V3.cross (buildTangent ⟨1, 0, 0⟩ ⟨0, 1, 0⟩ ⟨0, 0, 1⟩)
        (buildBitangent ⟨1, 0, 0⟩ (buildTangent ⟨1, 0, 0⟩ ⟨0, 1, 0⟩ ⟨0, 0, 1⟩)) =
      ⟨1, 0, 0⟩ := by
  refine ⟨⟨?_, ?_, ?_, ?_⟩, ?_⟩
  · norm_num [V3.lengthSq]
  · norm_num [V3.lengthSq]
  · norm_num [V3.lengthSq]
  · norm_num [V3.dot]
  · exact (c3_basis_orthonormal ⟨1, 0, 0⟩ ⟨0, 1, 0⟩ ⟨0, 0, 1⟩
      (by norm_num [V3.lengthSq]) (by norm_num [V3.lengthSq])
      (by norm_num [V3.lengthSq]) (by norm_num [V3.dot])).2.2.2.2.2.2

/-! ### C4: UV quality report -/

open scoped Classical in
lemma analyzeMeshProblems_some (g : BufferGeom) (uvl : List ℝ) (h : g.uvs = some uvl) :
    analyzeMeshProblems g =
      (if meshUvAreaSum g uvl > 1e-10 then
        if Real.sqrt (meshWorldAreaSum g / meshUvAreaSum g uvl) < 0.05 ∨
            Real.sqrt (meshWorldAreaSum g / meshUvAreaSum g uvl) > 500 then
          [UVProblem.UNIFORMITY_ISSUE]
        else []
      else [UVProblem.UV_DEGENERATE]) ++
      (if meshUVOutOfBounds g uvl then [UVProblem.UV_OUT_OF_BOUNDS] else []) := by
  unfold analyzeMeshProblems
  rw [h]

lemma analyzeMeshProblems_none (g : BufferGeom) (h : g.uvs = none) :
    analyzeMeshProblems g = [UVProblem.NO_UVS] := by
  unfold analyzeMeshProblems
  rw [h]

lemma getD_mem_or_default {α : Type} (l : List α) (n : ℕ) (d : α) :
    l.getD n d ∈ l ∨ l.getD n d = d := by
  induction l generalizing n with
  | nil => exact Or.inr rfl
  | cons a rest ih =>
    cases n with
    | zero => exact Or.inl (by simp)
    | succ m =>
      rcases ih m with h | h
      · exact Or.inl (by simp only [List.getD_cons_succ]; exact List.mem_cons_of_mem a h)
      · exact Or.inr (by simpa using h)

/-- The uv buffer of the counterexample mesh: one triangle of UV area 1/2
whose second vertex has `u = 2`, outside `[0,1]`. -/
noncomputable def c4uvOOB : List ℝ := [0, 0, 2, 0, 0, 1/2]

/-- The counterexample mesh: one world triangle of area 1/2 (matching the UV
area exactly, so `texelDensity = 1`), with an out-of-bounds uv vertex. -/
noncomputable def c4OOBMesh : BufferGeom := ⟨[0, 0, 0, 1, 0, 0, 0, 1, 0], some c4uvOOB, none⟩

lemma c4OOB_triCount : triCountLoop c4OOBMesh = 1 := by
  simp [triCountLoop, c4OOBMesh]

lemma c4OOB_triIdx : triIdx c4OOBMesh 0 = (0, 1, 2) := by
  simp [triIdx, c4OOBMesh]

lemma c4OOB_uvArea : triUvAreaOf c4OOBMesh c4uvOOB 0 = 1/2 := by
  rw [triUvAreaOf, c4OOB_triIdx]
  simp only [readUV, c4uvOOB, uvTriArea]
  norm_num

lemma c4OOB_worldArea : triWorldAreaOf c4OOBMesh 0 = 1/2 := by
  rw [triWorldAreaOf, c4OOB_triIdx]
  have hcross : V3.cross ((readPos c4OOBMesh 1).sub (readPos c4OOBMesh 0))
      ((readPos c4OOBMesh 2).sub (readPos c4OOBMesh 0)) = ⟨0, 0, 1⟩ := by
    refine V3.ext ?_ ?_ ?_ <;>
      simp [readPos, c4OOBMesh, V3.sub, V3.cross]
  simp only [worldTriArea, hcross]
  rw [V3.length, show (⟨0, 0, 1⟩ : V3).lengthSq = 1 by norm_num [V3.lengthSq],
    Real.sqrt_one]
  norm_num

lemma c4OOB_uvSum : meshUvAreaSum c4OOBMesh c4uvOOB = 1/2 := by
  unfold meshUvAreaSum
  rw [c4OOB_triCount, show List.range 1 = [0] by simp [List.range_succ]]
  simp [c4OOB_uvArea]

lemma c4OOB_worldSum : meshWorldAreaSum c4OOBMesh = 1/2 := by
  unfold meshWorldAreaSum
  rw [c4OOB_triCount, show List.range 1 = [0] by simp [List.range_succ]]
  simp [c4OOB_worldArea]

lemma c4OOB_oob : meshUVOutOfBounds c4OOBMesh c4uvOOB := by
  refine ⟨0, ?_, ?_⟩
  · rw [c4OOB_triCount]
    simp
  · rw [c4OOB_triIdx]
    simp only [readUV, c4uvOOB, uvCoordOOB]
    norm_num

/-- Claim C4 counterexample: a mesh whose single triangle has equal UV-space
and world-space area (texel density exactly 1, inside the safe band) still
receives a problem — `UV_OUT_OF_BOUNDS` — because one uv coordinate is 2. -/
theorem c4_equal_area_oob_cex :
    triUvAreaOf c4OOBMesh c4uvOOB 0 = triWorldAreaOf c4OOBMesh 0 ∧
    analyzeMeshProblems c4OOBMesh = [UVProblem.UV_OUT_OF_BOUNDS] := by
  constructor
  · rw [c4OOB_uvArea, c4OOB_worldArea]
  · rw [analyzeMeshProblems_some c4OOBMesh c4uvOOB rfl, c4OOB_uvSum, c4OOB_worldSum]
    rw [if_pos (by norm_num : (1/2 : ℝ) > 1e-10)]
    rw [div_self (by norm_num : (1/2 : ℝ) ≠ 0), Real.sqrt_one]
    rw [if_neg (by norm_num), if_pos c4OOB_oob]
    rfl

/-- Claim C4 amended: a mesh with no uv attribute always reports exactly
`NO_UVS` (positions and index are never inspected); the aggregate flag
satisfies `ok = (meshCount > 0) AND (no mesh has any problem)`; and a mesh
whose every triangle has equal UV-space and world-space area receives no
problems provided its uv coordinates all lie in `[0,1]` and its total uv
area exceeds the degeneracy threshold. -/
theorem c4_uv_report_amended :
    (∀ (positions : List ℝ) (ix : Option (List ℕ)),
      analyzeMeshProblems ⟨positions, none, ix⟩ = [UVProblem.NO_UVS]) ∧
    (∀ probs : List (List UVProblem),
      reportOk probs = true ↔ 0 < probs.length ∧ ∀ p ∈ probs, p = []) ∧
    (∀ (g : BufferGeom) (uvl : List ℝ), g.uvs = some uvl →
      (∀ c ∈ uvl, 0 ≤ c ∧ c ≤ 1) →
      (∀ ti ∈ List.range (triCountLoop g), triUvAreaOf g uvl ti = triWorldAreaOf g ti) →
      meshUvAreaSum g uvl > 1e-10 →
      analyzeMeshProblems g = []) := by
  refine ⟨fun positions ix => analyzeMeshProblems_none _ rfl, ?_, ?_⟩
  · intro probs
    unfold reportOk summaryProblems
    rw [Bool.and_eq_true, decide_eq_true_eq, List.isEmpty_iff, List.dedup_eq_nil,
      List.flatten_eq_nil_iff]
  · intro g uvl hsome hbound heq hpos
    have hsums : meshWorldAreaSum g = meshUvAreaSum g uvl := by
      unfold meshWorldAreaSum meshUvAreaSum
      exact congrArg List.sum (List.map_congr_left fun ti hti => (heq ti hti).symm)
    have hoob : ¬meshUVOutOfBounds g uvl := by
      rintro ⟨ti, hti, hbad⟩
      have hcoord : ∀ k : ℕ, ¬uvCoordOOB (readUV uvl k) := by
        intro k
        have hb : ∀ m : ℕ, 0 ≤ uvl.getD m 0 ∧ uvl.getD m 0 ≤ 1 := by
          intro m
          rcases getD_mem_or_default uvl m 0 with h | h
          · exact hbound _ h
          · rw [h]
            norm_num
        simp only [uvCoordOOB, readUV, not_or, not_lt]
        exact ⟨(hb _).1, (hb _).2, (hb _).1, (hb _).2⟩
      rcases hbad with h | h | h <;> exact hcoord _ h
    rw [analyzeMeshProblems_some g uvl hsome]
    rw [if_pos hpos, hsums,
      div_self (ne_of_gt (lt_trans (by norm_num) hpos)), Real.sqrt_one]
    rw [if_neg (by norm_num), if_neg hoob]
    rfl

/-- The uv buffer of the well-mapped witness mesh. -/
noncomputable def c4uvGood : List ℝ := [0, 0, 1, 0, 0, 1]

/-- The witness mesh: one triangle of equal UV and world area 1/2 with
in-bounds uv coordinates. -/
noncomputable def c4GoodMesh : BufferGeom := ⟨[0, 0, 0, 1, 0, 0, 0, 1, 0], some c4uvGood, none⟩

lemma c4Good_triCount : triCountLoop c4GoodMesh = 1 := by
  simp [triCountLoop, c4GoodMesh]

lemma c4Good_triIdx : triIdx c4GoodMesh 0 = (0, 1, 2) := by
  simp [triIdx, c4GoodMesh]

lemma c4Good_uvArea : triUvAreaOf c4GoodMesh c4uvGood 0 = 1/2 := by
  rw [triUvAreaOf, c4Good_triIdx]
  simp only [readUV, c4uvGood, uvTriArea]
  norm_num

lemma c4Good_worldArea : triWorldAreaOf c4GoodMesh 0 = 1/2 := by
  rw [triWorldAreaOf, c4Good_triIdx]
  have hcross : V3.cross ((readPos c4GoodMesh 1).sub (readPos c4GoodMesh 0))
      ((readPos c4GoodMesh 2).sub (readPos c4GoodMesh 0)) = ⟨0, 0, 1⟩ := by
    refine V3.ext ?_ ?_ ?_ <;>
      simp [readPos, c4GoodMesh, V3.sub, V3.cross]
  simp only [worldTriArea, hcross]
  rw [V3.length, show (⟨0, 0, 1⟩ : V3).lengthSq = 1 by norm_num [V3.lengthSq],
    Real.sqrt_one]
  norm_num

lemma c4Good_uvSum : meshUvAreaSum c4GoodMesh c4uvGood = 1/2 := by
  unfold meshUvAreaSum
  rw [c4Good_triCount, show List.range 1 = [0] by simp [List.range_succ]]
  simp [c4Good_uvArea]

/-- Witness for the amended C4: a no-uv mesh, a two-mesh problem-free
aggregate, and the concrete well-mapped mesh. -/
theorem c4_uv_report_amended_witness :
    analyzeMeshProblems ⟨[0, 0, 0], none, none⟩ = [UVProblem.NO_UVS] ∧
    (reportOk [[], []] = true ↔
      0 < ([[], []] : List (List UVProblem)).length ∧
        ∀ p ∈ ([[], []] : List (List UVProblem)), p = []) ∧
    analyzeMeshProblems c4GoodMesh = [] := by
  refine ⟨c4_uv_report_amended.1 [0, 0, 0] none, c4_uv_report_amended.2.1 _, ?_⟩
  refine c4_uv_report_amended.2.2 c4GoodMesh c4uvGood rfl ?_ ?_ ?_
  · intro c hc
    simp only [c4uvGood, List.mem_cons, List.not_mem_nil, or_false] at hc
    rcases hc with rfl | rfl | rfl | rfl | rfl | rfl <;> norm_num
  · intro ti hti
    rw [c4Good_triCount] at hti
    have hti0 : ti = 0 := by
      have := List.mem_range.mp hti
      omega
    subst hti0
    rw [c4Good_uvArea, c4Good_worldArea]
  · rw [c4Good_uvSum]
    norm_num

end MockupVisualizer
